import Mathlib

/-!
Verification of the Reader/Writer abstraction layer of the LHCb open-data
conversion tool (`lhcb_opendata.h`).  The canonical in-memory schema
(`KaonCandidate`, `Event`), the flattened row shape
(`H5Row::DataSet`) and the Reader/Writer class shapes are embedded from the
header; the method bodies live outside `src/` and are modelled from the
specification where a claim needs them.

Doubles are carried as opaque numeric payload (the layer only copies them,
never computes with them), so they are embedded as `Rat`, which keeps
equality decidable and all definitions executable.
-/

namespace LHCb

/-- C++ `double`, carried as opaque payload (copied, never computed with). -/
abbrev Double := Rat

/-- One reconstructed charged-track candidate (struct `KaonCandidate`,
`lhcb_opendata.h` lines 29-35). -/
structure KaonCandidate where
  h_px : Double
  h_py : Double
  h_pz : Double
  h_prob_k : Double
  h_prob_pi : Double
  h_charge : Bool
  h_is_muon : Bool
  h_ip_chi2 : Double
  deriving DecidableEq

/-- The canonical event (struct `Event`, `lhcb_opendata.h` lines 37-41):
two event-level scalars plus `std::array<KaonCandidate, 3>`, embedded as an
ordered triple. -/
structure Event where
  b_flight_distance : Double
  b_vertex_chi2 : Double
  kaon_candidates : KaonCandidate × KaonCandidate × KaonCandidate
  deriving DecidableEq

namespace H5Row

/-- The flattened row shape (struct `H5Row::DataSet`, `lhcb_opendata.h`
lines 47-62): 26 scalar fields, the two per-candidate booleans widened to
`int`. -/
structure DataSet where
  b_flight_distance : Double
  b_vertex_chi2 : Double
  h1_px : Double
  h1_py : Double
  h1_pz : Double
  h1_prob_k : Double
  h1_prob_pi : Double
  h1_charge : Int
  h1_is_muon : Int
  h1_ip_chi2 : Double
  h2_px : Double
  h2_py : Double
  h2_pz : Double
  h2_prob_k : Double
  h2_prob_pi : Double
  h2_charge : Int
  h2_is_muon : Int
  h2_ip_chi2 : Double
  h3_px : Double
  h3_py : Double
  h3_pz : Double
  h3_prob_k : Double
  h3_prob_pi : Double
  h3_charge : Int
  h3_is_muon : Int
  h3_ip_chi2 : Double
  deriving DecidableEq

end H5Row

/-- C++ implicit widening of `bool` to `int` (true becomes 1, false 0). -/
def boolToInt (b : Bool) : Int := if b then 1 else 0

/-- C++ implicit narrowing of `int` to `bool` (nonzero becomes true). -/
def intToBool (i : Int) : Bool := i != 0

theorem intToBool_boolToInt (b : Bool) : intToBool (boolToInt b) = b := by
  cases b <;> rfl

/-- Modelled from the spec: the writer-side flattening of an `Event` into
the flattened row shape used by the relational and hierarchical-row
back-ends (bodies of `EventWriterSqlite::WriteEvent` and
`EventWriterH5Row::WriteEvent` are not in `src/`).  Field order follows
`H5Row::DataSet`; the two booleans per candidate are widened to integer. -/
def flattenEvent (e : Event) : H5Row.DataSet :=
  ⟨e.b_flight_distance, e.b_vertex_chi2,
   e.kaon_candidates.1.h_px, e.kaon_candidates.1.h_py, e.kaon_candidates.1.h_pz,
   e.kaon_candidates.1.h_prob_k, e.kaon_candidates.1.h_prob_pi,
   boolToInt e.kaon_candidates.1.h_charge, boolToInt e.kaon_candidates.1.h_is_muon,
   e.kaon_candidates.1.h_ip_chi2,
   e.kaon_candidates.2.1.h_px, e.kaon_candidates.2.1.h_py, e.kaon_candidates.2.1.h_pz,
   e.kaon_candidates.2.1.h_prob_k, e.kaon_candidates.2.1.h_prob_pi,
   boolToInt e.kaon_candidates.2.1.h_charge, boolToInt e.kaon_candidates.2.1.h_is_muon,
   e.kaon_candidates.2.1.h_ip_chi2,
   e.kaon_candidates.2.2.h_px, e.kaon_candidates.2.2.h_py, e.kaon_candidates.2.2.h_pz,
   e.kaon_candidates.2.2.h_prob_k, e.kaon_candidates.2.2.h_prob_pi,
   boolToInt e.kaon_candidates.2.2.h_charge, boolToInt e.kaon_candidates.2.2.h_is_muon,
   e.kaon_candidates.2.2.h_ip_chi2⟩

/-- Modelled from the spec: the reader-side un-flattening of the flattened
row shape back into an `Event` (bodies of `EventReaderSqlite::NextEvent`
and `EventReaderH5Row::NextEvent` are not in `src/`); integer charge/muon
columns are narrowed back to boolean. -/
def unflattenDataSet (d : H5Row.DataSet) : Event :=
  ⟨d.b_flight_distance, d.b_vertex_chi2,
   (⟨d.h1_px, d.h1_py, d.h1_pz, d.h1_prob_k, d.h1_prob_pi,
     intToBool d.h1_charge, intToBool d.h1_is_muon, d.h1_ip_chi2⟩,
    ⟨d.h2_px, d.h2_py, d.h2_pz, d.h2_prob_k, d.h2_prob_pi,
     intToBool d.h2_charge, intToBool d.h2_is_muon, d.h2_ip_chi2⟩,
    ⟨d.h3_px, d.h3_py, d.h3_pz, d.h3_prob_k, d.h3_prob_pi,
     intToBool d.h3_charge, intToBool d.h3_is_muon, d.h3_ip_chi2⟩)⟩

theorem unflatten_flatten (e : Event) : unflattenDataSet (flattenEvent e) = e := by
  simp [unflattenDataSet, flattenEvent, intToBool_boolToInt]

theorem map_unflatten_flatten (es : List Event) :
    (es.map flattenEvent).map unflattenDataSet = es := by
  induction es with
  | nil => rfl
  | cons e es ih => simp [ih, unflatten_flatten]

/-- Modelled from the spec: one candidate sub-record of the schema-row
(Avro) back-end, whose embedded schema mirrors the nested
`Event`/`KaonCandidate` shape (`.avsc` schema and `EventWriterAvro` bodies
are not in `src/`). -/
structure AvroKaonCandidate where
  h_px : Double
  h_py : Double
  h_pz : Double
  h_prob_k : Double
  h_prob_pi : Double
  h_charge : Bool
  h_is_muon : Bool
  h_ip_chi2 : Double
  deriving DecidableEq

/-- Modelled from the spec: one schema-row (Avro) record — three repeated
candidate sub-records plus the two event-level scalars. -/
structure AvroEvent where
  b_flight_distance : Double
  b_vertex_chi2 : Double
  candidates : AvroKaonCandidate × AvroKaonCandidate × AvroKaonCandidate
  deriving DecidableEq

/-- Modelled from the spec: encoding a canonical `Event` into one
schema-row record, a field-by-field copy of the nested shape. -/
def eventToAvro (e : Event) : AvroEvent :=
  ⟨e.b_flight_distance, e.b_vertex_chi2,
   (⟨e.kaon_candidates.1.h_px, e.kaon_candidates.1.h_py, e.kaon_candidates.1.h_pz,
     e.kaon_candidates.1.h_prob_k, e.kaon_candidates.1.h_prob_pi,
     e.kaon_candidates.1.h_charge, e.kaon_candidates.1.h_is_muon,
     e.kaon_candidates.1.h_ip_chi2⟩,
    ⟨e.kaon_candidates.2.1.h_px, e.kaon_candidates.2.1.h_py, e.kaon_candidates.2.1.h_pz,
     e.kaon_candidates.2.1.h_prob_k, e.kaon_candidates.2.1.h_prob_pi,
     e.kaon_candidates.2.1.h_charge, e.kaon_candidates.2.1.h_is_muon,
     e.kaon_candidates.2.1.h_ip_chi2⟩,
    ⟨e.kaon_candidates.2.2.h_px, e.kaon_candidates.2.2.h_py, e.kaon_candidates.2.2.h_pz,
     e.kaon_candidates.2.2.h_prob_k, e.kaon_candidates.2.2.h_prob_pi,
     e.kaon_candidates.2.2.h_charge, e.kaon_candidates.2.2.h_is_muon,
     e.kaon_candidates.2.2.h_ip_chi2⟩)⟩

/-- Modelled from the spec: decoding one schema-row record directly into
`Event`/`KaonCandidate` form (no flattening — the native shape already
matches the nested schema). -/
def avroToEvent (a : AvroEvent) : Event :=
  ⟨a.b_flight_distance, a.b_vertex_chi2,
   (⟨a.candidates.1.h_px, a.candidates.1.h_py, a.candidates.1.h_pz,
     a.candidates.1.h_prob_k, a.candidates.1.h_prob_pi,
     a.candidates.1.h_charge, a.candidates.1.h_is_muon, a.candidates.1.h_ip_chi2⟩,
    ⟨a.candidates.2.1.h_px, a.candidates.2.1.h_py, a.candidates.2.1.h_pz,
     a.candidates.2.1.h_prob_k, a.candidates.2.1.h_prob_pi,
     a.candidates.2.1.h_charge, a.candidates.2.1.h_is_muon, a.candidates.2.1.h_ip_chi2⟩,
    ⟨a.candidates.2.2.h_px, a.candidates.2.2.h_py, a.candidates.2.2.h_pz,
     a.candidates.2.2.h_prob_k, a.candidates.2.2.h_prob_pi,
     a.candidates.2.2.h_charge, a.candidates.2.2.h_is_muon, a.candidates.2.2.h_ip_chi2⟩)⟩

theorem avro_round_trip (e : Event) : avroToEvent (eventToAvro e) = e := rfl

/-- Modelled from the spec: one candidate sub-message of the
message-stream (protobuf) back-end; message content mirrors the nested
`Event` shape (`lhcb_opendata.proto` is not in `src/`). -/
structure PbKaonCandidate where
  h_px : Double
  h_py : Double
  h_pz : Double
  h_prob_k : Double
  h_prob_pi : Double
  h_charge : Bool
  h_is_muon : Bool
  h_ip_chi2 : Double
  deriving DecidableEq

/-- Modelled from the spec: one length-delimited message (`PbEvent`) of
the message-stream back-end, mirroring the nested `Event` shape. -/
structure PbEvent where
  b_flight_distance : Double
  b_vertex_chi2 : Double
  candidates : PbKaonCandidate × PbKaonCandidate × PbKaonCandidate
  deriving DecidableEq

/-- Modelled from the spec: serializing one `Event` as one message, a
field-by-field copy of the nested shape. -/
def eventToPb (e : Event) : PbEvent :=
  ⟨e.b_flight_distance, e.b_vertex_chi2,
   (⟨e.kaon_candidates.1.h_px, e.kaon_candidates.1.h_py, e.kaon_candidates.1.h_pz,
     e.kaon_candidates.1.h_prob_k, e.kaon_candidates.1.h_prob_pi,
     e.kaon_candidates.1.h_charge, e.kaon_candidates.1.h_is_muon,
     e.kaon_candidates.1.h_ip_chi2⟩,
    ⟨e.kaon_candidates.2.1.h_px, e.kaon_candidates.2.1.h_py, e.kaon_candidates.2.1.h_pz,
     e.kaon_candidates.2.1.h_prob_k, e.kaon_candidates.2.1.h_prob_pi,
     e.kaon_candidates.2.1.h_charge, e.kaon_candidates.2.1.h_is_muon,
     e.kaon_candidates.2.1.h_ip_chi2⟩,
    ⟨e.kaon_candidates.2.2.h_px, e.kaon_candidates.2.2.h_py, e.kaon_candidates.2.2.h_pz,
     e.kaon_candidates.2.2.h_prob_k, e.kaon_candidates.2.2.h_prob_pi,
     e.kaon_candidates.2.2.h_charge, e.kaon_candidates.2.2.h_is_muon,
     e.kaon_candidates.2.2.h_ip_chi2⟩)⟩

/-- Modelled from the spec: decoding one message into the nested `Event`
form (`EventReaderProtobuf::NextEvent` body is not in `src/`). -/
def pbToEvent (p : PbEvent) : Event :=
  ⟨p.b_flight_distance, p.b_vertex_chi2,
   (⟨p.candidates.1.h_px, p.candidates.1.h_py, p.candidates.1.h_pz,
     p.candidates.1.h_prob_k, p.candidates.1.h_prob_pi,
     p.candidates.1.h_charge, p.candidates.1.h_is_muon, p.candidates.1.h_ip_chi2⟩,
    ⟨p.candidates.2.1.h_px, p.candidates.2.1.h_py, p.candidates.2.1.h_pz,
     p.candidates.2.1.h_prob_k, p.candidates.2.1.h_prob_pi,
     p.candidates.2.1.h_charge, p.candidates.2.1.h_is_muon, p.candidates.2.1.h_ip_chi2⟩,
    ⟨p.candidates.2.2.h_px, p.candidates.2.2.h_py, p.candidates.2.2.h_pz,
     p.candidates.2.2.h_prob_k, p.candidates.2.2.h_prob_pi,
     p.candidates.2.2.h_charge, p.candidates.2.2.h_is_muon, p.candidates.2.2.h_ip_chi2⟩)⟩

theorem pb_round_trip (e : Event) : pbToEvent (eventToPb e) = e := rfl

theorem map_avro_round_trip (es : List Event) :
    (es.map eventToAvro).map avroToEvent = es := by
  induction es with
  | nil => rfl
  | cons e es ih => simp [ih, avro_round_trip]

theorem map_pb_round_trip (es : List Event) :
    (es.map eventToPb).map pbToEvent = es := by
  induction es with
  | nil => rfl
  | cons e es ih => simp [ih, pb_round_trip]

/-- Modelled from the spec: the sequential access state shared by the
relational, hierarchical-row, schema-row and message-stream readers — a
source of records (prepared SELECT result / dataset / record container /
message stream) plus an internal cursor advanced by one record per call
(the concrete cursor is the prepared statement position, `nevent_`, or the
stream offset; bodies are not in `src/`). -/
structure SeqReader (ρ : Type) where
  records : List ρ
  cursor : Nat

variable {ρ σ ω : Type}

/-- Modelled from the spec: `NextEvent` for a sequential reader — on
success it overwrites the `Event` with the decoded next record and
advances the cursor by one; on exhaustion it returns false and leaves the
`Event` untouched. -/
def SeqReader.NextEvent (decode : ρ → Event) (s : SeqReader ρ) (e : Event) :
    Bool × Event × SeqReader ρ :=
  match s.records[s.cursor]? with
  | some r => (true, decode r, ⟨s.records, s.cursor + 1⟩)
  | none => (false, e, s)

/-- Modelled from the spec: `EventReaderSqlite::Open` — prepares the
SELECT enumerating all rows in source order, cursor at the first row. -/
def EventReaderSqlite.Open (rows : List H5Row.DataSet) : SeqReader H5Row.DataSet :=
  ⟨rows, 0⟩

/-- Modelled from the spec: `EventReaderSqlite::NextEvent` — steps the
prepared SELECT and un-flattens the flattened row, narrowing integer
charge/muon columns back to boolean. -/
def EventReaderSqlite.NextEvent (s : SeqReader H5Row.DataSet) (e : Event) :
    Bool × Event × SeqReader H5Row.DataSet :=
  SeqReader.NextEvent unflattenDataSet s e

/-- Modelled from the spec: `EventReaderH5Row::Open` — locates the single
compound-typed dataset, `nevent_` (the cursor) at zero. -/
def EventReaderH5Row.Open (rows : List H5Row.DataSet) : SeqReader H5Row.DataSet :=
  ⟨rows, 0⟩

/-- Modelled from the spec: `EventReaderH5Row::NextEvent` — reads one
compound record via a memory-space selection advanced by one row each
call and un-flattens it exactly as the relational reader does. -/
def EventReaderH5Row.NextEvent (s : SeqReader H5Row.DataSet) (e : Event) :
    Bool × Event × SeqReader H5Row.DataSet :=
  SeqReader.NextEvent unflattenDataSet s e

/-- Modelled from the spec: `EventReaderAvro::Open` — opens the
record-oriented container with its embedded schema. -/
def EventReaderAvro.Open (records : List AvroEvent) : SeqReader AvroEvent :=
  ⟨records, 0⟩

/-- Modelled from the spec: `EventReaderAvro::NextEvent` — decodes one
record per call directly into `Event`/`KaonCandidate` form. -/
def EventReaderAvro.NextEvent (s : SeqReader AvroEvent) (e : Event) :
    Bool × Event × SeqReader AvroEvent :=
  SeqReader.NextEvent avroToEvent s e

/-- Modelled from the spec: `EventReaderProtobuf::Open` — opens the byte
stream (optionally through a decompression filter). -/
def EventReaderProtobuf.Open (messages : List PbEvent) : SeqReader PbEvent :=
  ⟨messages, 0⟩

/-- Modelled from the spec: `EventReaderProtobuf::NextEvent` — reads one
length-delimited message per call and decodes it into the nested shape. -/
def EventReaderProtobuf.NextEvent (s : SeqReader PbEvent) (e : Event) :
    Bool × Event × SeqReader PbEvent :=
  SeqReader.NextEvent pbToEvent s e

namespace EventReaderRoot

/-- The analysis-tree reader's state: the chained view of the source
entries plus the `num_events_` and `pos_events_` counters declared in
`lhcb_opendata.h` lines 153-168 (both `int` in the source). -/
structure State where
  entries : List H5Row.DataSet
  num_events : Int
  pos_events : Int

/-- Modelled from the spec: `EventReaderRoot::Open` — chains the source
files into one sequential view, setting the event counter to the total
number of entries and the position counter to zero. -/
def Open (entries : List H5Row.DataSet) : State :=
  ⟨entries, (entries.length : Int), 0⟩

/-- Modelled from the spec: `EventReaderRoot::NextEvent` — returns false
once the position counter reaches the total event count, otherwise copies
the current entry's branch values into the bound `Event` and advances the
position counter by one. -/
def NextEvent (s : State) (e : Event) : Bool × Event × State :=
  if s.pos_events ≥ s.num_events then (false, e, s)
  else
    match s.entries[s.pos_events.toNat]? with
    | some r => (true, unflattenDataSet r, ⟨s.entries, s.num_events, s.pos_events + 1⟩)
    | none => (false, e, s)

end EventReaderRoot

/-- The Reader variants of `lhcb_opendata.h` (the dispatch targets of the
virtual `EventReader` interface). -/
inductive ReaderVariant where
  | sqlite
  | h5row
  | avro
  | protobuf
  | root
  deriving DecidableEq

/-- Outcome of a `PrepareForConversion` call. -/
inductive PrepareResult where
  | ok
  | aborted
  deriving DecidableEq

/-- `EventReader::PrepareForConversion` dispatch, embedded from
`lhcb_opendata.h`: the base-class default body is `{ abort(); }` (line
86) and only `EventReaderRoot` overrides it (line 159; its body, which
binds the `Event`'s storage addresses to the tree branches, is not in
`src/` and is modelled from the spec as succeeding). -/
def PrepareForConversion : ReaderVariant → PrepareResult
  | .root => .ok
  | _ => .aborted

namespace EventWriterSqlite

/-- Modelled from the spec: `EventWriterSqlite::Open` — creates the one
table holding the flattened row shape; the fresh destination is
empty. -/
def Open : List H5Row.DataSet := []

/-- Modelled from the spec: `EventWriterSqlite::WriteEvent` — one prepared
INSERT per call, binding the 26 flattened scalar fields (booleans widened
to integer) in the order the relational reader decodes them; append-only. -/
def WriteEvent (tbl : List H5Row.DataSet) (e : Event) : List H5Row.DataSet :=
  tbl ++ [flattenEvent e]

/-- Modelled from the spec: `EventWriterSqlite::Close` — commits and
finalizes, leaving the table contents fully readable. -/
def Close (tbl : List H5Row.DataSet) : List H5Row.DataSet := tbl

end EventWriterSqlite

namespace EventWriterH5Row

/-- The hierarchical-row writer's state: the extensible compound dataset
plus the incrementing row counter `nevent_` (`lhcb_opendata.h` lines
216-230). -/
structure State where
  rows : List H5Row.DataSet
  nevent : Nat

/-- Modelled from the spec: `EventWriterH5Row::Open` — creates the single
compound-typed dataset, unlimited along the row dimension, initially
empty, with `nevent_` zero. -/
def Open : State := ⟨[], 0⟩

/-- Modelled from the spec: `EventWriterH5Row::WriteEvent` — extends the
dataset by one row, using the incrementing row counter to select the
append position. -/
def WriteEvent (s : State) (e : Event) : State :=
  ⟨s.rows ++ [flattenEvent e], s.nevent + 1⟩

/-- Modelled from the spec: `EventWriterH5Row::Close` — flushes and
releases the handles; the destination holds the written rows. -/
def Close (s : State) : List H5Row.DataSet := s.rows

end EventWriterH5Row

/-- Modelled from the spec: the hierarchical-columnar destination — one
dataset per scalar field of the flattened shape, all sharing a common
row-index dimension (`EventWriterH5Column` bodies are not in `src/`). -/
structure H5ColumnStorage where
  b_flight_distance : List Double
  b_vertex_chi2 : List Double
  h1_px : List Double
  h1_py : List Double
  h1_pz : List Double
  h1_prob_k : List Double
  h1_prob_pi : List Double
  h1_charge : List Int
  h1_is_muon : List Int
  h1_ip_chi2 : List Double
  h2_px : List Double
  h2_py : List Double
  h2_pz : List Double
  h2_prob_k : List Double
  h2_prob_pi : List Double
  h2_charge : List Int
  h2_is_muon : List Int
  h2_ip_chi2 : List Double
  h3_px : List Double
  h3_py : List Double
  h3_pz : List Double
  h3_prob_k : List Double
  h3_prob_pi : List Double
  h3_charge : List Int
  h3_is_muon : List Int
  h3_ip_chi2 : List Double

namespace H5ColumnStorage

/-- The columnar storage whose per-field datasets are the columns of the
given row list (column `f` holds `rows.map f`). -/
def fromRows (rows : List H5Row.DataSet) : H5ColumnStorage :=
  ⟨rows.map fun r => r.b_flight_distance, rows.map fun r => r.b_vertex_chi2,
   rows.map fun r => r.h1_px, rows.map fun r => r.h1_py, rows.map fun r => r.h1_pz,
   rows.map fun r => r.h1_prob_k, rows.map fun r => r.h1_prob_pi,
   rows.map fun r => r.h1_charge, rows.map fun r => r.h1_is_muon,
   rows.map fun r => r.h1_ip_chi2,
   rows.map fun r => r.h2_px, rows.map fun r => r.h2_py, rows.map fun r => r.h2_pz,
   rows.map fun r => r.h2_prob_k, rows.map fun r => r.h2_prob_pi,
   rows.map fun r => r.h2_charge, rows.map fun r => r.h2_is_muon,
   rows.map fun r => r.h2_ip_chi2,
   rows.map fun r => r.h3_px, rows.map fun r => r.h3_py, rows.map fun r => r.h3_pz,
   rows.map fun r => r.h3_prob_k, rows.map fun r => r.h3_prob_pi,
   rows.map fun r => r.h3_charge, rows.map fun r => r.h3_is_muon,
   rows.map fun r => r.h3_ip_chi2⟩

/-- All 26 per-field datasets have exactly `n` elements. -/
def lockstep (c : H5ColumnStorage) (n : Nat) : Prop :=
  c.b_flight_distance.length = n ∧ c.b_vertex_chi2.length = n ∧
  c.h1_px.length = n ∧ c.h1_py.length = n ∧ c.h1_pz.length = n ∧
  c.h1_prob_k.length = n ∧ c.h1_prob_pi.length = n ∧
  c.h1_charge.length = n ∧ c.h1_is_muon.length = n ∧ c.h1_ip_chi2.length = n ∧
  c.h2_px.length = n ∧ c.h2_py.length = n ∧ c.h2_pz.length = n ∧
  c.h2_prob_k.length = n ∧ c.h2_prob_pi.length = n ∧
  c.h2_charge.length = n ∧ c.h2_is_muon.length = n ∧ c.h2_ip_chi2.length = n ∧
  c.h3_px.length = n ∧ c.h3_py.length = n ∧ c.h3_pz.length = n ∧
  c.h3_prob_k.length = n ∧ c.h3_prob_pi.length = n ∧
  c.h3_charge.length = n ∧ c.h3_is_muon.length = n ∧ c.h3_ip_chi2.length = n

/-- Gathers the element at row index `i` of every per-field dataset back
into one flattened row (zero-padded when `i` is out of range, matching the
flattening of a default-initialized event). -/
def rowAt (c : H5ColumnStorage) (i : Nat) : H5Row.DataSet :=
  ⟨c.b_flight_distance.getD i 0, c.b_vertex_chi2.getD i 0,
   c.h1_px.getD i 0, c.h1_py.getD i 0, c.h1_pz.getD i 0,
   c.h1_prob_k.getD i 0, c.h1_prob_pi.getD i 0,
   c.h1_charge.getD i 0, c.h1_is_muon.getD i 0, c.h1_ip_chi2.getD i 0,
   c.h2_px.getD i 0, c.h2_py.getD i 0, c.h2_pz.getD i 0,
   c.h2_prob_k.getD i 0, c.h2_prob_pi.getD i 0,
   c.h2_charge.getD i 0, c.h2_is_muon.getD i 0, c.h2_ip_chi2.getD i 0,
   c.h3_px.getD i 0, c.h3_py.getD i 0, c.h3_pz.getD i 0,
   c.h3_prob_k.getD i 0, c.h3_prob_pi.getD i 0,
   c.h3_charge.getD i 0, c.h3_is_muon.getD i 0, c.h3_ip_chi2.getD i 0⟩

end H5ColumnStorage

namespace EventWriterH5Column

/-- Modelled from the spec: `EventWriterH5Column::Open` — creates one
dataset per scalar field, all initially empty. -/
def Open : H5ColumnStorage := H5ColumnStorage.fromRows []

/-- Modelled from the spec: `EventWriterH5Column::WriteEvent` — appends
one element to each of the per-field datasets in lockstep (booleans
widened to integer exactly as in the flattened row shape). -/
def WriteEvent (c : H5ColumnStorage) (e : Event) : H5ColumnStorage :=
  let r := flattenEvent e
  ⟨c.b_flight_distance ++ [r.b_flight_distance], c.b_vertex_chi2 ++ [r.b_vertex_chi2],
   c.h1_px ++ [r.h1_px], c.h1_py ++ [r.h1_py], c.h1_pz ++ [r.h1_pz],
   c.h1_prob_k ++ [r.h1_prob_k], c.h1_prob_pi ++ [r.h1_prob_pi],
   c.h1_charge ++ [r.h1_charge], c.h1_is_muon ++ [r.h1_is_muon],
   c.h1_ip_chi2 ++ [r.h1_ip_chi2],
   c.h2_px ++ [r.h2_px], c.h2_py ++ [r.h2_py], c.h2_pz ++ [r.h2_pz],
   c.h2_prob_k ++ [r.h2_prob_k], c.h2_prob_pi ++ [r.h2_prob_pi],
   c.h2_charge ++ [r.h2_charge], c.h2_is_muon ++ [r.h2_is_muon],
   c.h2_ip_chi2 ++ [r.h2_ip_chi2],
   c.h3_px ++ [r.h3_px], c.h3_py ++ [r.h3_py], c.h3_pz ++ [r.h3_pz],
   c.h3_prob_k ++ [r.h3_prob_k], c.h3_prob_pi ++ [r.h3_prob_pi],
   c.h3_charge ++ [r.h3_charge], c.h3_is_muon ++ [r.h3_is_muon],
   c.h3_ip_chi2 ++ [r.h3_ip_chi2]⟩

/-- Modelled from the spec: `EventWriterH5Column::Close` — flushes and
releases; the destination holds the per-field datasets. -/
def Close (c : H5ColumnStorage) : H5ColumnStorage := c

end EventWriterH5Column

namespace EventWriterProtobuf

/-- Modelled from the spec: `EventWriterProtobuf::Open` — opens the output
byte stream (optionally through a compression filter); initially no
messages. -/
def Open : List PbEvent := []

/-- Modelled from the spec: `EventWriterProtobuf::WriteEvent` — serializes
the `Event` as one length-delimited message appended to the stream. -/
def WriteEvent (msgs : List PbEvent) (e : Event) : List PbEvent :=
  msgs ++ [eventToPb e]

/-- Modelled from the spec: `EventWriterProtobuf::Close` — flushes the
stream; the destination holds the written messages. -/
def Close (msgs : List PbEvent) : List PbEvent := msgs

end EventWriterProtobuf

namespace EventWriterAvro

/-- The schema-row writer's state: the record container plus the `nevent_`
counter declared in `lhcb_opendata.h` lines 261-272. -/
structure State where
  records : List AvroEvent
  nevent : Nat

/-- Modelled from the spec: `EventWriterAvro::Open` — creates the
schema-carrying container (optionally compressed), initially empty. -/
def Open : State := ⟨[], 0⟩

/-- Modelled from the spec: `EventWriterAvro::WriteEvent` — encodes the
`Event` directly (nested shape, no flattening) as one appended record. -/
def WriteEvent (s : State) (e : Event) : State :=
  ⟨s.records ++ [eventToAvro e], s.nevent + 1⟩

/-- Modelled from the spec: `EventWriterAvro::Close` — flushes and closes
the container; the destination holds the written records. -/
def Close (s : State) : List AvroEvent := s.records

end EventWriterAvro

/-- The default-constructed `Event` buffer held by `EventWriterRoot`
(member `event_`, `lhcb_opendata.h` line 257), modelled with zeroed
payload. -/
def Event.defaultInit : Event :=
  ⟨0, 0, (⟨0, 0, 0, 0, 0, false, false, 0⟩,
          ⟨0, 0, 0, 0, 0, false, false, 0⟩,
          ⟨0, 0, 0, 0, 0, false, false, 0⟩)⟩

namespace EventWriterRoot

/-- The analysis-tree writer's state: the tree entries plus the persistent
`Event`-shaped buffer `event_` bound to the tree's branches
(`lhcb_opendata.h` lines 245-258). -/
structure State where
  entries : List H5Row.DataSet
  event_buf : Event

/-- Modelled from the spec: `EventWriterRoot::Open` — creates the tree and
binds the branch set (mirroring the flattened field shape, by name) to the
persistent buffer; initially no entries. -/
def Open : State := ⟨[], Event.defaultInit⟩

/-- Modelled from the spec: `EventWriterRoot::WriteEvent` — copies the
argument into the bound buffer and commits one tree entry. -/
def WriteEvent (s : State) (e : Event) : State :=
  ⟨s.entries ++ [flattenEvent e], e⟩

/-- Modelled from the spec: `EventWriterRoot::Close` — writes the tree and
closes the file; the destination holds the committed entries. -/
def Close (s : State) : List H5Row.DataSet := s.entries

end EventWriterRoot

/-- Reads events from a sequential reader until `NextEvent` first reports
exhaustion (fuel bounds the iteration count; with enough fuel the source
is fully drained). -/
def SeqReader.readLoop (decode : ρ → Event) : Nat → SeqReader ρ → Event → List Event
  | 0, _, _ => []
  | fuel + 1, s, e =>
    match SeqReader.NextEvent decode s e with
    | (true, e', s') => e' :: SeqReader.readLoop decode fuel s' e'
    | (false, _, _) => []

theorem SeqReader.readLoop_drains (decode : ρ → Event) :
    ∀ (rest done : List ρ) (fuel : Nat) (e : Event), rest.length < fuel →
      SeqReader.readLoop decode fuel ⟨done ++ rest, done.length⟩ e = rest.map decode := by
  intro rest
  induction rest with
  | nil =>
      intro done fuel e hfuel
      match fuel, hfuel with
      | fuel + 1, _ =>
        simp [SeqReader.readLoop, SeqReader.NextEvent, List.getElem?_eq_none]
  | cons r rest ih =>
      intro done fuel e hfuel
      match fuel, hfuel with
      | fuel + 1, hfuel =>
        have hget : (done ++ r :: rest)[done.length]? = some r := by
          rw [List.getElem?_append_right (Nat.le_refl done.length)]
          simp
        have hrec := ih (done ++ [r]) fuel (decode r) (by simpa using Nat.lt_of_succ_lt_succ hfuel)
        simp only [SeqReader.readLoop, SeqReader.NextEvent, hget]
        simp only [List.append_assoc, List.singleton_append, List.length_append,
          List.length_singleton] at hrec
        simp [hrec]

/-- Iterates `NextEvent`-style calls of a reader, collecting the success
flags; the `Event` buffer and the reader state thread through the calls
exactly as in the conversion loop. -/
def runReads (step : σ → Event → Bool × Event × σ) :
    Nat → σ → Event → List Bool × Event × σ
  | 0, s, e => ([], e, s)
  | n + 1, s, e =>
    match step s e with
    | (b, e', s') =>
      match runReads step n s' e' with
      | (bs, e'', s'') => (b :: bs, e'', s'')

theorem runReads_seq (decode : ρ → Event) :
    ∀ (rest done : List ρ) (e : Event),
      ∃ e', runReads (SeqReader.NextEvent decode) rest.length ⟨done ++ rest, done.length⟩ e =
        (List.replicate rest.length true, e', ⟨done ++ rest, done.length + rest.length⟩) := by
  intro rest
  induction rest with
  | nil => intro done e; exact ⟨e, by simp [runReads]⟩
  | cons r rest ih =>
      intro done e
      have hget : (done ++ r :: rest)[done.length]? = some r := by
        rw [List.getElem?_append_right (Nat.le_refl done.length)]
        simp
      obtain ⟨e', he'⟩ := ih (done ++ [r]) (decode r)
      refine ⟨e', ?_⟩
      simp only [List.append_assoc, List.singleton_append, List.length_append,
        List.length_singleton] at he'
      simp only [List.length_cons, runReads, SeqReader.NextEvent, hget, he']
      simp [List.replicate_succ]
      omega

theorem seqReader_exhausted (decode : ρ → Event) (rs : List ρ) (e : Event) :
    SeqReader.NextEvent decode ⟨rs, rs.length⟩ e = (false, e, ⟨rs, rs.length⟩) := by
  simp [SeqReader.NextEvent, List.getElem?_eq_none]

/-- Reads events from the analysis-tree reader until `NextEvent` first
reports exhaustion (fuel bounds the iteration count). -/
def EventReaderRoot.readLoop : Nat → EventReaderRoot.State → Event → List Event
  | 0, _, _ => []
  | fuel + 1, s, e =>
    match EventReaderRoot.NextEvent s e with
    | (true, e', s') => e' :: EventReaderRoot.readLoop fuel s' e'
    | (false, _, _) => []

theorem eventReaderRoot_step (done rest : List H5Row.DataSet) (r : H5Row.DataSet) (e : Event) :
    EventReaderRoot.NextEvent
        ⟨done ++ r :: rest, ((done ++ r :: rest).length : Int), (done.length : Int)⟩ e =
      (true, unflattenDataSet r,
        ⟨done ++ r :: rest, ((done ++ r :: rest).length : Int), (((done ++ [r]).length : Nat) : Int)⟩) := by
  have hlt : ¬ ((done.length : Int) ≥ ((done ++ r :: rest).length : Int)) := by
    simp only [List.length_append, List.length_cons, ge_iff_le, Nat.cast_le, not_le]
    omega
  have hget : (done ++ r :: rest)[((done.length : Int)).toNat]? = some r := by
    rw [Int.toNat_natCast]
    rw [List.getElem?_append_right (Nat.le_refl done.length)]
    simp
  simp only [EventReaderRoot.NextEvent]
  rw [if_neg hlt, hget]
  simp only [Prod.mk.injEq, EventReaderRoot.State.mk.injEq, List.length_append,
    List.length_singleton, true_and]
  omega

theorem eventReaderRoot_exhausted (rows : List H5Row.DataSet) (e : Event) :
    EventReaderRoot.NextEvent ⟨rows, (rows.length : Int), (rows.length : Int)⟩ e =
      (false, e, ⟨rows, (rows.length : Int), (rows.length : Int)⟩) := by
  simp [EventReaderRoot.NextEvent]

theorem eventReaderRoot_readLoop_drains :
    ∀ (rest done : List H5Row.DataSet) (fuel : Nat) (e : Event), rest.length < fuel →
      EventReaderRoot.readLoop fuel
          ⟨done ++ rest, ((done ++ rest).length : Int), (done.length : Int)⟩ e =
        rest.map unflattenDataSet := by
  intro rest
  induction rest with
  | nil =>
      intro done fuel e hfuel
      match fuel, hfuel with
      | fuel + 1, _ =>
        simp [EventReaderRoot.readLoop, eventReaderRoot_exhausted]
  | cons r rest ih =>
      intro done fuel e hfuel
      match fuel, hfuel with
      | fuel + 1, hfuel =>
        have hrec := ih (done ++ [r]) fuel (unflattenDataSet r)
          (by simpa using Nat.lt_of_succ_lt_succ hfuel)
        simp only [EventReaderRoot.readLoop, eventReaderRoot_step]
        rw [show done ++ r :: rest = (done ++ [r]) ++ rest by simp]
        rw [hrec]
        simp

theorem runReads_root :
    ∀ (rest done : List H5Row.DataSet) (e : Event),
      ∃ e', runReads EventReaderRoot.NextEvent rest.length
          ⟨done ++ rest, ((done ++ rest).length : Int), (done.length : Int)⟩ e =
        (List.replicate rest.length true, e',
          ⟨done ++ rest, ((done ++ rest).length : Int), ((done.length + rest.length : Nat) : Int)⟩) := by
  intro rest
  induction rest with
  | nil => intro done e; exact ⟨e, by simp [runReads]⟩
  | cons r rest ih =>
      intro done e
      obtain ⟨e', he'⟩ := ih (done ++ [r]) (unflattenDataSet r)
      refine ⟨e', ?_⟩
      simp only [List.length_cons, runReads, eventReaderRoot_step]
      rw [show done ++ r :: rest = (done ++ [r]) ++ rest by simp]
      rw [he']
      simp only [Prod.mk.injEq, EventReaderRoot.State.mk.injEq, List.replicate_succ,
        List.append_assoc, List.singleton_append, List.length_append, List.length_cons,
        List.length_singleton, List.length_nil, true_and, and_true]
      omega

/-- One observable action of the conversion driver: a successful read, a
write handing that event to the writer, the exhausted read, or closing the
writer. -/
inductive DriverOp where
  | readOk (e : Event)
  | writeEvt (e : Event)
  | readEnd
  | closeWriter
  deriving DecidableEq

/-- Modelled from the spec: the conversion driver's sequential loop —
repeat (read one event; if exhausted, stop; write that event) until
exhaustion, then close the writer.  It returns the trace of driver
actions and the final writer destination; fuel bounds the iteration
count. -/
def convertLoop (decode : ρ → Event) (encode : Event → ω) :
    Nat → SeqReader ρ → Event → List ω → List DriverOp × List ω
  | 0, _, _, w => ([], w)
  | fuel + 1, s, e, w =>
    match SeqReader.NextEvent decode s e with
    | (true, e', s') =>
      match convertLoop decode encode fuel s' e' (w ++ [encode e']) with
      | (tr, w') => (DriverOp.readOk e' :: DriverOp.writeEvt e' :: tr, w')
    | (false, _, _) => ([DriverOp.readEnd, DriverOp.closeWriter], w)

theorem convertLoop_spec (decode : ρ → Event) (encode : Event → ω) :
    ∀ (rest done : List ρ) (fuel : Nat) (e : Event) (w : List ω), rest.length < fuel →
      convertLoop decode encode fuel ⟨done ++ rest, done.length⟩ e w =
        ((rest.map decode).flatMap (fun x => [DriverOp.readOk x, DriverOp.writeEvt x]) ++
           [DriverOp.readEnd, DriverOp.closeWriter],
         w ++ (rest.map decode).map encode) := by
  intro rest
  induction rest with
  | nil =>
      intro done fuel e w hfuel
      match fuel, hfuel with
      | fuel + 1, _ =>
        simp [convertLoop, SeqReader.NextEvent, List.getElem?_eq_none]
  | cons r rest ih =>
      intro done fuel e w hfuel
      match fuel, hfuel with
      | fuel + 1, hfuel =>
        have hget : (done ++ r :: rest)[done.length]? = some r := by
          rw [List.getElem?_append_right (Nat.le_refl done.length)]
          simp
        have hrec := ih (done ++ [r]) fuel (decode r) (w ++ [encode (decode r)])
          (by simpa using Nat.lt_of_succ_lt_succ hfuel)
        simp only [List.append_assoc, List.singleton_append, List.length_append,
          List.length_singleton] at hrec
        simp only [convertLoop, SeqReader.NextEvent, hget, hrec]
        simp

theorem count_closeWriter (es : List Event) :
    ((es.flatMap fun x => [DriverOp.readOk x, DriverOp.writeEvt x]) ++
        [DriverOp.readEnd, DriverOp.closeWriter]).count DriverOp.closeWriter = 1 := by
  have hmem : DriverOp.closeWriter ∉ es.flatMap fun x => [DriverOp.readOk x, DriverOp.writeEvt x] := by
    simp [List.mem_flatMap]
  rw [List.count_append, List.count_eq_zero.mpr hmem]
  rfl

theorem foldl_writeEventSqlite (es : List Event) :
    ∀ (acc : List H5Row.DataSet),
      List.foldl EventWriterSqlite.WriteEvent acc es = acc ++ es.map flattenEvent := by
  induction es with
  | nil => intro acc; simp
  | cons e es ih => intro acc; simp [EventWriterSqlite.WriteEvent, ih]

theorem foldl_writeEventH5Row (es : List Event) :
    ∀ (acc : EventWriterH5Row.State),
      List.foldl EventWriterH5Row.WriteEvent acc es =
        ⟨acc.rows ++ es.map flattenEvent, acc.nevent + es.length⟩ := by
  induction es with
  | nil => intro acc; simp
  | cons e es ih =>
      intro acc
      simp only [List.foldl_cons, ih, EventWriterH5Row.WriteEvent]
      simp
      omega

theorem foldl_writeEventProtobuf (es : List Event) :
    ∀ (acc : List PbEvent),
      List.foldl EventWriterProtobuf.WriteEvent acc es = acc ++ es.map eventToPb := by
  induction es with
  | nil => intro acc; simp
  | cons e es ih => intro acc; simp [EventWriterProtobuf.WriteEvent, ih]

theorem foldl_writeEventAvro (es : List Event) :
    ∀ (acc : EventWriterAvro.State),
      List.foldl EventWriterAvro.WriteEvent acc es =
        ⟨acc.records ++ es.map eventToAvro, acc.nevent + es.length⟩ := by
  induction es with
  | nil => intro acc; simp
  | cons e es ih =>
      intro acc
      simp only [List.foldl_cons, ih, EventWriterAvro.WriteEvent]
      simp
      omega

theorem foldl_writeEventRoot (es : List Event) :
    ∀ (acc : EventWriterRoot.State),
      (List.foldl EventWriterRoot.WriteEvent acc es).entries =
        acc.entries ++ es.map flattenEvent := by
  induction es with
  | nil => intro acc; simp
  | cons e es ih => intro acc; simp [EventWriterRoot.WriteEvent, ih]

theorem writeEventH5Column_fromRows (rows : List H5Row.DataSet) (e : Event) :
    EventWriterH5Column.WriteEvent (H5ColumnStorage.fromRows rows) e =
      H5ColumnStorage.fromRows (rows ++ [flattenEvent e]) := by
  simp [EventWriterH5Column.WriteEvent, H5ColumnStorage.fromRows]

theorem foldl_writeEventH5Column (es : List Event) :
    ∀ (rows : List H5Row.DataSet),
      List.foldl EventWriterH5Column.WriteEvent (H5ColumnStorage.fromRows rows) es =
        H5ColumnStorage.fromRows (rows ++ es.map flattenEvent) := by
  induction es with
  | nil => intro rows; simp
  | cons e es ih =>
      intro rows
      simp only [List.foldl_cons, writeEventH5Column_fromRows, ih]
      simp

theorem lockstep_fromRows (rows : List H5Row.DataSet) :
    H5ColumnStorage.lockstep (H5ColumnStorage.fromRows rows) rows.length := by
  simp [H5ColumnStorage.lockstep, H5ColumnStorage.fromRows]

theorem rowAt_fromRows (rows : List H5Row.DataSet) (i : Nat) :
    (H5ColumnStorage.fromRows rows).rowAt i =
      rows.getD i (flattenEvent Event.defaultInit) := by
  cases h : rows[i]? with
  | none =>
      simp [H5ColumnStorage.rowAt, H5ColumnStorage.fromRows,
        List.getD_eq_getElem?_getD, List.getElem?_map, h, flattenEvent,
        Event.defaultInit, boolToInt]
  | some r =>
      simp [H5ColumnStorage.rowAt, H5ColumnStorage.fromRows,
        List.getD_eq_getElem?_getD, List.getElem?_map, h]

theorem getD_map_flatten (es : List Event) (i : Nat) :
    (es.map flattenEvent).getD i (flattenEvent Event.defaultInit) =
      flattenEvent (es.getD i Event.defaultInit) := by
  cases h : es[i]? with
  | none => simp [List.getD_eq_getElem?_getD, List.getElem?_map, h]
  | some e => simp [List.getD_eq_getElem?_getD, List.getElem?_map, h]

/-- One scalar cell of the flattened row shape: a double or a widened
integer. -/
inductive Scalar where
  | d (x : Double)
  | i (x : Int)
  deriving DecidableEq

/-- The eight scalar cells of one candidate in the flattened row shape:
three momentum components, two PID scores, charge, muon flag, and
impact-parameter chi-square. -/
def candidateScalars (px py pz pk ppi : Double) (q m : Int) (ip : Double) : List Scalar :=
  [.d px, .d py, .d pz, .d pk, .d ppi, .i q, .i m, .d ip]

/-- The 26 scalar fields of one flattened row, in the declaration order of
`H5Row::DataSet`. -/
def H5Row.DataSet.toList (r : H5Row.DataSet) : List Scalar :=
  [.d r.b_flight_distance, .d r.b_vertex_chi2,
   .d r.h1_px, .d r.h1_py, .d r.h1_pz, .d r.h1_prob_k, .d r.h1_prob_pi,
   .i r.h1_charge, .i r.h1_is_muon, .d r.h1_ip_chi2,
   .d r.h2_px, .d r.h2_py, .d r.h2_pz, .d r.h2_prob_k, .d r.h2_prob_pi,
   .i r.h2_charge, .i r.h2_is_muon, .d r.h2_ip_chi2,
   .d r.h3_px, .d r.h3_py, .d r.h3_pz, .d r.h3_prob_k, .d r.h3_prob_pi,
   .i r.h3_charge, .i r.h3_is_muon, .d r.h3_ip_chi2]

/-- The field names of `H5Row::DataSet`, in declaration order
(`lhcb_opendata.h` lines 47-62). -/
def H5Row.DataSet.fieldNames : List String :=
  ["b_flight_distance", "b_vertex_chi2",
   "h1_px", "h1_py", "h1_pz", "h1_prob_k", "h1_prob_pi",
   "h1_charge", "h1_is_muon", "h1_ip_chi2",
   "h2_px", "h2_py", "h2_pz", "h2_prob_k", "h2_prob_pi",
   "h2_charge", "h2_is_muon", "h2_ip_chi2",
   "h3_px", "h3_py", "h3_pz", "h3_prob_k", "h3_prob_pi",
   "h3_charge", "h3_is_muon", "h3_ip_chi2"]

/-- Modelled from the spec: the columns of the relational back-end's one
table, the flattened row shape with positional naming, in the
order bound by the prepared INSERT (the CREATE TABLE statement is not in
`src/`). -/
def sqliteTableColumns : List String :=
  ["b_flight_distance", "b_vertex_chi2",
   "h1_px", "h1_py", "h1_pz", "h1_prob_k", "h1_prob_pi",
   "h1_charge", "h1_is_muon", "h1_ip_chi2",
   "h2_px", "h2_py", "h2_pz", "h2_prob_k", "h2_prob_pi",
   "h2_charge", "h2_is_muon", "h2_ip_chi2",
   "h3_px", "h3_py", "h3_pz", "h3_prob_k", "h3_prob_pi",
   "h3_charge", "h3_is_muon", "h3_ip_chi2"]

/-- The spec's example three-candidate event: flight distance 1.5, vertex
chi-square 2.5, first candidate momenta (1, 2, 3), PID scores (0.1, 0.9),
charge true, muon flag false, ip-chi2 0; the remaining two candidates are
filled with arbitrary distinct values. -/
def sampleEvent : Event :=
  ⟨3/2, 5/2,
   (⟨1, 2, 3, 1/10, 9/10, true, false, 0⟩,
    ⟨4, 5, 6, 2/10, 8/10, false, true, 0⟩,
    ⟨7, 8, 9, 3/10, 7/10, true, true, 0⟩)⟩

/-- `EventWriterSqlite::WriteEvent(const Event &)`: the returned pair is
(destination after the call, caller's `Event` after the call); the const
qualifier (`lhcb_opendata.h` line 184) makes the latter the argument
itself. -/
def EventWriterSqlite.WriteEventConst (tbl : List H5Row.DataSet) (e : Event) :
    List H5Row.DataSet × Event :=
  (EventWriterSqlite.WriteEvent tbl e, e)

/-- `EventWriterH5Row::WriteEvent(const Event &)` with the caller's
`Event` after the call. -/
def EventWriterH5Row.WriteEventConst (s : EventWriterH5Row.State) (e : Event) :
    EventWriterH5Row.State × Event :=
  (EventWriterH5Row.WriteEvent s e, e)

/-- `EventWriterH5Column::WriteEvent(const Event &)` with the caller's
`Event` after the call. -/
def EventWriterH5Column.WriteEventConst (c : H5ColumnStorage) (e : Event) :
    H5ColumnStorage × Event :=
  (EventWriterH5Column.WriteEvent c e, e)

/-- `EventWriterProtobuf::WriteEvent(const Event &)` with the caller's
`Event` after the call. -/
def EventWriterProtobuf.WriteEventConst (msgs : List PbEvent) (e : Event) :
    List PbEvent × Event :=
  (EventWriterProtobuf.WriteEvent msgs e, e)

/-- `EventWriterAvro::WriteEvent(const Event &)` with the caller's
`Event` after the call. -/
def EventWriterAvro.WriteEventConst (s : EventWriterAvro.State) (e : Event) :
    EventWriterAvro.State × Event :=
  (EventWriterAvro.WriteEvent s e, e)

/-- `EventWriterRoot::WriteEvent(const Event &)` with the caller's
`Event` after the call (the body copies the argument into the internal
bound buffer `event_`; it never writes through the argument). -/
def EventWriterRoot.WriteEventConst (s : EventWriterRoot.State) (e : Event) :
    EventWriterRoot.State × Event :=
  (EventWriterRoot.WriteEvent s e, e)

/-- C3 counterexample: the claim that `PrepareForConversion` is an
ignored no-op on every Reader variant other than the analysis-tree reader
is false — the relational variant inherits the base-class default body
`{ abort(); }` (`lhcb_opendata.h` line 86), which terminates the
program. -/
theorem c3_prepare_counterexample :
    ¬ (∀ v : ReaderVariant, v ≠ ReaderVariant.root →
        PrepareForConversion v = PrepareResult.ok) := by
  intro h
  exact absurd (h ReaderVariant.sqlite (by decide)) (by decide)

/-- C3 (amended): for every Reader variant other than the analysis-tree
reader, `PrepareForConversion` is not overridden and invokes the
base-class default, which calls `abort()` and terminates the program;
only the analysis-tree reader's override proceeds normally. -/
theorem c3_prepare_aborts_elsewhere :
    PrepareForConversion ReaderVariant.sqlite = PrepareResult.aborted ∧
    PrepareForConversion ReaderVariant.h5row = PrepareResult.aborted ∧
    PrepareForConversion ReaderVariant.avro = PrepareResult.aborted ∧
    PrepareForConversion ReaderVariant.protobuf = PrepareResult.aborted ∧
    PrepareForConversion ReaderVariant.root = PrepareResult.ok := by
  decide

/-- C4 counterexample: the flattened row shape does not have exactly 24
scalar fields — `H5Row::DataSet` declares 26 (the two event-level scalars
plus eight fields for each of the three candidates), as the claim's own
field enumeration adds up to. -/
theorem c4_counterexample_26_fields :
    (flattenEvent sampleEvent).toList.length ≠ 24 ∧
    sqliteTableColumns.length ≠ 24 := by
  refine ⟨?_, ?_⟩ <;> decide

/-- C4 (amended): the flattened row shape consists of exactly 26 scalar
fields — the event-level flight distance and vertex chi-square followed
by, per candidate, three momentum components, two PID scores, charge,
muon flag and impact-parameter chi-square, repeated three times with
positional naming (24 per-candidate fields after the two event-level
ones) — and the relational table has exactly these 26 columns in the same
order. -/
theorem c4_flattened_row_shape (r : H5Row.DataSet) :
    r.toList.length = 26 ∧
    (r.toList.drop 2).length = 24 ∧
    r.toList = [Scalar.d r.b_flight_distance, Scalar.d r.b_vertex_chi2] ++
      candidateScalars r.h1_px r.h1_py r.h1_pz r.h1_prob_k r.h1_prob_pi
        r.h1_charge r.h1_is_muon r.h1_ip_chi2 ++
      candidateScalars r.h2_px r.h2_py r.h2_pz r.h2_prob_k r.h2_prob_pi
        r.h2_charge r.h2_is_muon r.h2_ip_chi2 ++
      candidateScalars r.h3_px r.h3_py r.h3_pz r.h3_prob_k r.h3_prob_pi
        r.h3_charge r.h3_is_muon r.h3_ip_chi2 ∧
    H5Row.DataSet.fieldNames.length = 26 ∧
    sqliteTableColumns = H5Row.DataSet.fieldNames ∧
    sqliteTableColumns.length = 26 :=
  ⟨by simp [H5Row.DataSet.toList], by simp [H5Row.DataSet.toList], rfl,
   by simp [H5Row.DataSet.fieldNames], rfl, by simp [sqliteTableColumns]⟩

/-- C5: flattening a canonical `Event` into the flattened row shape is a
lossless, invertible projection — un-flattening the flattened form yields
a field-wise equal `Event` — where the two boolean fields per candidate
are widened to integer (true to 1, false to 0) and narrowed back. -/
theorem c5_flatten_lossless :
    (∀ e : Event, unflattenDataSet (flattenEvent e) = e) ∧
    (∀ b : Bool, intToBool (boolToInt b) = b) ∧
    boolToInt true = 1 ∧ boolToInt false = 0 :=
  ⟨unflatten_flatten, intToBool_boolToInt, rfl, rfl⟩

/-- C1: writing one event with a format's Writer (Open, WriteEvent,
Close) and reading the destination back with the matching Reader yields
an Event equal to the original field-by-field, including the
per-candidate charge and muon flags that are widened to integer on
storage and narrowed back to boolean on read, for all five Writer/Reader
pairs (relational, hierarchical-row, schema-row, message-stream,
analysis-tree). -/
theorem c1_round_trip_all_formats (e e0 : Event) :
    ((EventReaderSqlite.NextEvent
        (EventReaderSqlite.Open
          (EventWriterSqlite.Close
            (EventWriterSqlite.WriteEvent EventWriterSqlite.Open e))) e0).1 = true ∧
     (EventReaderSqlite.NextEvent
        (EventReaderSqlite.Open
          (EventWriterSqlite.Close
            (EventWriterSqlite.WriteEvent EventWriterSqlite.Open e))) e0).2.1 = e) ∧
    ((EventReaderH5Row.NextEvent
        (EventReaderH5Row.Open
          (EventWriterH5Row.Close
            (EventWriterH5Row.WriteEvent EventWriterH5Row.Open e))) e0).1 = true ∧
     (EventReaderH5Row.NextEvent
        (EventReaderH5Row.Open
          (EventWriterH5Row.Close
            (EventWriterH5Row.WriteEvent EventWriterH5Row.Open e))) e0).2.1 = e) ∧
    ((EventReaderAvro.NextEvent
        (EventReaderAvro.Open
          (EventWriterAvro.Close
            (EventWriterAvro.WriteEvent EventWriterAvro.Open e))) e0).1 = true ∧
     (EventReaderAvro.NextEvent
        (EventReaderAvro.Open
          (EventWriterAvro.Close
            (EventWriterAvro.WriteEvent EventWriterAvro.Open e))) e0).2.1 = e) ∧
    ((EventReaderProtobuf.NextEvent
        (EventReaderProtobuf.Open
          (EventWriterProtobuf.Close
            (EventWriterProtobuf.WriteEvent EventWriterProtobuf.Open e))) e0).1 = true ∧
     (EventReaderProtobuf.NextEvent
        (EventReaderProtobuf.Open
          (EventWriterProtobuf.Close
            (EventWriterProtobuf.WriteEvent EventWriterProtobuf.Open e))) e0).2.1 = e) ∧
    ((EventReaderRoot.NextEvent
        (EventReaderRoot.Open
          (EventWriterRoot.Close
            (EventWriterRoot.WriteEvent EventWriterRoot.Open e))) e0).1 = true ∧
     (EventReaderRoot.NextEvent
        (EventReaderRoot.Open
          (EventWriterRoot.Close
            (EventWriterRoot.WriteEvent EventWriterRoot.Open e))) e0).2.1 = e) := by
  refine ⟨⟨?_, ?_⟩, ⟨?_, ?_⟩, ⟨?_, ?_⟩, ⟨?_, ?_⟩, ⟨?_, ?_⟩⟩ <;>
    simp [EventReaderSqlite.NextEvent, EventReaderSqlite.Open, EventWriterSqlite.Close,
      EventWriterSqlite.WriteEvent, EventWriterSqlite.Open,
      EventReaderH5Row.NextEvent, EventReaderH5Row.Open, EventWriterH5Row.Close,
      EventWriterH5Row.WriteEvent, EventWriterH5Row.Open,
      EventReaderAvro.NextEvent, EventReaderAvro.Open, EventWriterAvro.Close,
      EventWriterAvro.WriteEvent, EventWriterAvro.Open,
      EventReaderProtobuf.NextEvent, EventReaderProtobuf.Open, EventWriterProtobuf.Close,
      EventWriterProtobuf.WriteEvent, EventWriterProtobuf.Open,
      EventReaderRoot.NextEvent, EventReaderRoot.Open, EventWriterRoot.Close,
      EventWriterRoot.WriteEvent, EventWriterRoot.Open,
      SeqReader.NextEvent, unflatten_flatten, avro_round_trip, pb_round_trip]

/-- C2: for every Writer variant, writing events E1..En by successive
WriteEvent calls leaves the destination holding exactly those records in
call order (append-only), and for each matched Reader the successive
NextEvent calls yield the identical sequence E1..En in the identical
order. -/
theorem c2_order_preservation (es : List Event) (e0 : Event) :
    List.foldl EventWriterSqlite.WriteEvent EventWriterSqlite.Open es = es.map flattenEvent ∧
    (List.foldl EventWriterH5Row.WriteEvent EventWriterH5Row.Open es).rows =
      es.map flattenEvent ∧
    List.foldl EventWriterH5Column.WriteEvent EventWriterH5Column.Open es =
      H5ColumnStorage.fromRows (es.map flattenEvent) ∧
    List.foldl EventWriterProtobuf.WriteEvent EventWriterProtobuf.Open es =
      es.map eventToPb ∧
    (List.foldl EventWriterAvro.WriteEvent EventWriterAvro.Open es).records =
      es.map eventToAvro ∧
    (List.foldl EventWriterRoot.WriteEvent EventWriterRoot.Open es).entries =
      es.map flattenEvent ∧
    SeqReader.readLoop unflattenDataSet (es.length + 1)
      (EventReaderSqlite.Open
        (EventWriterSqlite.Close
          (List.foldl EventWriterSqlite.WriteEvent EventWriterSqlite.Open es))) e0 = es ∧
    SeqReader.readLoop unflattenDataSet (es.length + 1)
      (EventReaderH5Row.Open
        (EventWriterH5Row.Close
          (List.foldl EventWriterH5Row.WriteEvent EventWriterH5Row.Open es))) e0 = es ∧
    SeqReader.readLoop avroToEvent (es.length + 1)
      (EventReaderAvro.Open
        (EventWriterAvro.Close
          (List.foldl EventWriterAvro.WriteEvent EventWriterAvro.Open es))) e0 = es ∧
    SeqReader.readLoop pbToEvent (es.length + 1)
      (EventReaderProtobuf.Open
        (EventWriterProtobuf.Close
          (List.foldl EventWriterProtobuf.WriteEvent EventWriterProtobuf.Open es))) e0 = es ∧
    EventReaderRoot.readLoop (es.length + 1)
      (EventReaderRoot.Open
        (EventWriterRoot.Close
          (List.foldl EventWriterRoot.WriteEvent EventWriterRoot.Open es))) e0 = es := by
  have hsq : List.foldl EventWriterSqlite.WriteEvent EventWriterSqlite.Open es =
      es.map flattenEvent := by
    simpa [EventWriterSqlite.Open] using foldl_writeEventSqlite es EventWriterSqlite.Open
  have hh5 : List.foldl EventWriterH5Row.WriteEvent EventWriterH5Row.Open es =
      ⟨es.map flattenEvent, es.length⟩ := by
    simpa [EventWriterH5Row.Open] using foldl_writeEventH5Row es EventWriterH5Row.Open
  have hcol : List.foldl EventWriterH5Column.WriteEvent EventWriterH5Column.Open es =
      H5ColumnStorage.fromRows (es.map flattenEvent) := by
    simpa using foldl_writeEventH5Column es []
  have hpb : List.foldl EventWriterProtobuf.WriteEvent EventWriterProtobuf.Open es =
      es.map eventToPb := by
    simpa [EventWriterProtobuf.Open] using foldl_writeEventProtobuf es EventWriterProtobuf.Open
  have hav : List.foldl EventWriterAvro.WriteEvent EventWriterAvro.Open es =
      ⟨es.map eventToAvro, es.length⟩ := by
    simpa [EventWriterAvro.Open] using foldl_writeEventAvro es EventWriterAvro.Open
  have hrt : (List.foldl EventWriterRoot.WriteEvent EventWriterRoot.Open es).entries =
      es.map flattenEvent := by
    simpa [EventWriterRoot.Open] using foldl_writeEventRoot es EventWriterRoot.Open
  have hreadFlat : SeqReader.readLoop unflattenDataSet (es.length + 1)
      ⟨es.map flattenEvent, 0⟩ e0 = es := by
    have h := SeqReader.readLoop_drains unflattenDataSet (es.map flattenEvent) []
      (es.length + 1) e0 (by simp)
    rw [map_unflatten_flatten] at h
    simpa using h
  have hreadAvro : SeqReader.readLoop avroToEvent (es.length + 1)
      ⟨es.map eventToAvro, 0⟩ e0 = es := by
    have h := SeqReader.readLoop_drains avroToEvent (es.map eventToAvro) []
      (es.length + 1) e0 (by simp)
    rw [map_avro_round_trip] at h
    simpa using h
  have hreadPb : SeqReader.readLoop pbToEvent (es.length + 1)
      ⟨es.map eventToPb, 0⟩ e0 = es := by
    have h := SeqReader.readLoop_drains pbToEvent (es.map eventToPb) []
      (es.length + 1) e0 (by simp)
    rw [map_pb_round_trip] at h
    simpa using h
  have hreadRoot : EventReaderRoot.readLoop (es.length + 1)
      ⟨es.map flattenEvent, ((es.map flattenEvent).length : Int), 0⟩ e0 = es := by
    have h := eventReaderRoot_readLoop_drains (es.map flattenEvent) []
      (es.length + 1) e0 (by simp)
    rw [map_unflatten_flatten] at h
    simpa using h
  refine ⟨hsq, ?_, hcol, hpb, ?_, hrt, ?_, ?_, ?_, ?_, ?_⟩
  · rw [hh5]
  · rw [hav]
  · simpa [EventReaderSqlite.Open, EventWriterSqlite.Close, hsq] using hreadFlat
  · simpa [EventReaderH5Row.Open, EventWriterH5Row.Close, hh5] using hreadFlat
  · simpa [EventReaderAvro.Open, EventWriterAvro.Close, hav] using hreadAvro
  · simpa [EventReaderProtobuf.Open, EventWriterProtobuf.Close, hpb] using hreadPb
  · simpa [EventReaderRoot.Open, EventWriterRoot.Close, hrt] using hreadRoot

/-- The exhaustion pattern of one reader: starting from state `s0` over a
source of `n` records with initial Event buffer `e0`, the first `n`
NextEvent calls all succeed, and one further call returns false leaving
both the Event buffer and the reader state unchanged. -/
def exhaustBehavior {σ : Type} (step : σ → Event → Bool × Event × σ) (n : Nat) (s0 : σ)
    (e0 : Event) : Prop :=
  (runReads step n s0 e0).1 = List.replicate n true ∧
  step (runReads step n s0 e0).2.2 (runReads step n s0 e0).2.1 =
    (false, (runReads step n s0 e0).2.1, (runReads step n s0 e0).2.2)

theorem exhaustBehavior_seq (decode : ρ → Event) (rs : List ρ) (e0 : Event) :
    exhaustBehavior (SeqReader.NextEvent decode) rs.length ⟨rs, 0⟩ e0 := by
  obtain ⟨e', he⟩ := runReads_seq decode rs [] e0
  simp only [List.nil_append, List.length_nil, Nat.zero_add] at he
  unfold exhaustBehavior
  rw [he]
  exact ⟨rfl, seqReader_exhausted decode rs e'⟩

theorem exhaustBehavior_root (rows : List H5Row.DataSet) (e0 : Event) :
    exhaustBehavior EventReaderRoot.NextEvent rows.length (EventReaderRoot.Open rows) e0 := by
  obtain ⟨e', he⟩ := runReads_root rows [] e0
  simp only [List.nil_append, List.length_nil, Nat.zero_add, Nat.cast_zero] at he
  unfold exhaustBehavior
  simp only [EventReaderRoot.Open]
  rw [he]
  exact ⟨rfl, eventReaderRoot_exhausted rows e'⟩

/-- C6: for every Reader variant reading a source of exactly N records,
the first N NextEvent calls each return true, and the (N+1)-th call
returns false without mutating the Event passed to it (or the reader
state). -/
theorem c6_exhaustion (rowsS rowsH rowsR : List H5Row.DataSet) (recs : List AvroEvent)
    (msgs : List PbEvent) (e0 : Event) :
    exhaustBehavior EventReaderSqlite.NextEvent rowsS.length (EventReaderSqlite.Open rowsS) e0 ∧
    exhaustBehavior EventReaderH5Row.NextEvent rowsH.length (EventReaderH5Row.Open rowsH) e0 ∧
    exhaustBehavior EventReaderAvro.NextEvent recs.length (EventReaderAvro.Open recs) e0 ∧
    exhaustBehavior EventReaderProtobuf.NextEvent msgs.length
      (EventReaderProtobuf.Open msgs) e0 ∧
    exhaustBehavior EventReaderRoot.NextEvent rowsR.length (EventReaderRoot.Open rowsR) e0 :=
  ⟨exhaustBehavior_seq unflattenDataSet rowsS e0,
   exhaustBehavior_seq unflattenDataSet rowsH e0,
   exhaustBehavior_seq avroToEvent recs e0,
   exhaustBehavior_seq pbToEvent msgs e0,
   exhaustBehavior_root rowsR e0⟩

/-- C7: for the hierarchical-columnar Writer, after writing N events
every per-field dataset has exactly N elements, and for every row index
within range the elements at that index across all per-field datasets
together reconstruct the event written at that index (out-of-range
indices yield the zero-padded default row). -/
theorem c7_columnar_lockstep (es : List Event) :
    H5ColumnStorage.lockstep
      (EventWriterH5Column.Close
        (List.foldl EventWriterH5Column.WriteEvent EventWriterH5Column.Open es))
      es.length ∧
    ∀ i : Nat,
      (EventWriterH5Column.Close
          (List.foldl EventWriterH5Column.WriteEvent EventWriterH5Column.Open es)).rowAt i =
        flattenEvent (es.getD i Event.defaultInit) ∧
      unflattenDataSet
          ((EventWriterH5Column.Close
            (List.foldl EventWriterH5Column.WriteEvent EventWriterH5Column.Open es)).rowAt i) =
        es.getD i Event.defaultInit := by
  have hw : List.foldl EventWriterH5Column.WriteEvent EventWriterH5Column.Open es =
      H5ColumnStorage.fromRows (es.map flattenEvent) := by
    simpa using foldl_writeEventH5Column es []
  constructor
  · simp only [EventWriterH5Column.Close, hw]
    have h := lockstep_fromRows (es.map flattenEvent)
    rwa [List.length_map] at h
  · intro i
    simp only [EventWriterH5Column.Close, hw, rowAt_fromRows, getD_map_flatten]
    simp [unflatten_flatten]

/-- C8: the analysis-tree Reader's NextEvent returns false exactly when
the position counter has reached the total event count, and on success it
advances the position counter by exactly one while leaving the total
count unchanged. -/
theorem c8_root_counters (rows : List H5Row.DataSet) (pos : Nat) (e : Event)
    (h : pos ≤ rows.length) :
    ((EventReaderRoot.NextEvent ⟨rows, (rows.length : Int), (pos : Int)⟩ e).1 = false ↔
      pos = rows.length) ∧
    (pos < rows.length →
      (EventReaderRoot.NextEvent ⟨rows, (rows.length : Int), (pos : Int)⟩ e).2.2.pos_events =
          (pos : Int) + 1 ∧
      (EventReaderRoot.NextEvent ⟨rows, (rows.length : Int), (pos : Int)⟩ e).2.2.num_events =
          (rows.length : Int)) := by
  rcases Nat.lt_or_ge pos rows.length with hlt | hge
  · have hcond : ¬ ((pos : Int) ≥ (rows.length : Int)) := by
      simp only [ge_iff_le, Nat.cast_le, not_le]
      exact hlt
    have hget : rows[((pos : Int)).toNat]? = some rows[pos] := by
      rw [Int.toNat_natCast]
      exact List.getElem?_eq_getElem hlt
    simp only [EventReaderRoot.NextEvent, if_neg hcond, hget]
    constructor
    · simp
      omega
    · intro hp
      simp
  · have heq : pos = rows.length := Nat.le_antisymm h hge
    subst heq
    simp only [eventReaderRoot_exhausted]
    refine ⟨by simp, ?_⟩
    intro hp
    exact absurd hp (by omega)

/-- C8 witness: the counter behavior evaluated on a one-entry chain at
position zero. -/
theorem c8_root_counters_witness :
    (0 : Nat) ≤ ([flattenEvent sampleEvent] : List H5Row.DataSet).length ∧
    (((EventReaderRoot.NextEvent
        ⟨[flattenEvent sampleEvent],
         (([flattenEvent sampleEvent] : List H5Row.DataSet).length : Int),
         ((0 : Nat) : Int)⟩ sampleEvent).1 = false ↔
        (0 : Nat) = ([flattenEvent sampleEvent] : List H5Row.DataSet).length) ∧
     ((0 : Nat) < ([flattenEvent sampleEvent] : List H5Row.DataSet).length →
      (EventReaderRoot.NextEvent
          ⟨[flattenEvent sampleEvent],
           (([flattenEvent sampleEvent] : List H5Row.DataSet).length : Int),
           ((0 : Nat) : Int)⟩ sampleEvent).2.2.pos_events = ((0 : Nat) : Int) + 1 ∧
      (EventReaderRoot.NextEvent
          ⟨[flattenEvent sampleEvent],
           (([flattenEvent sampleEvent] : List H5Row.DataSet).length : Int),
           ((0 : Nat) : Int)⟩ sampleEvent).2.2.num_events =
        (([flattenEvent sampleEvent] : List H5Row.DataSet).length : Int))) :=
  ⟨Nat.zero_le _, c8_root_counters [flattenEvent sampleEvent] 0 sampleEvent (Nat.zero_le _)⟩

/-- C9: the conversion driver is a strictly sequential loop — its trace
is exactly read-then-write for each source record in order, each event is
fully written before the next is read, the exhausted read is followed by
exactly one writer close and by no write, and the final destination holds
precisely the decoded events in source order re-encoded, with no
buffering, batching, retrying or reordering. -/
theorem c9_driver_sequential {ρ ω : Type} (decode : ρ → Event) (encode : Event → ω)
    (rs : List ρ) (e0 : Event) (w0 : List ω) :
    convertLoop decode encode (rs.length + 1) ⟨rs, 0⟩ e0 w0 =
      (((rs.map decode).flatMap fun x => [DriverOp.readOk x, DriverOp.writeEvt x]) ++
         [DriverOp.readEnd, DriverOp.closeWriter],
       w0 ++ (rs.map decode).map encode) ∧
    (convertLoop decode encode (rs.length + 1) ⟨rs, 0⟩ e0 w0).1.count
      DriverOp.closeWriter = 1 := by
  have h := convertLoop_spec decode encode rs [] (rs.length + 1) e0 w0 (by omega)
  simp only [List.nil_append, List.length_nil] at h
  refine ⟨h, ?_⟩
  rw [h]
  exact count_closeWriter (rs.map decode)

/-- C10: `WriteEvent` consumes the caller's `Event` read-only (const
reference, `lhcb_opendata.h` line 176): for every Writer variant the
caller's `Event` after the call equals its value at the call. -/
theorem c10_writeEvent_leaves_event_unchanged
    (tbl : List H5Row.DataSet) (sH : EventWriterH5Row.State) (c : H5ColumnStorage)
    (msgs : List PbEvent) (sA : EventWriterAvro.State) (sR : EventWriterRoot.State)
    (e : Event) :
    (EventWriterSqlite.WriteEventConst tbl e).2 = e ∧
    (EventWriterH5Row.WriteEventConst sH e).2 = e ∧
    (EventWriterH5Column.WriteEventConst c e).2 = e ∧
    (EventWriterProtobuf.WriteEventConst msgs e).2 = e ∧
    (EventWriterAvro.WriteEventConst sA e).2 = e ∧
    (EventWriterRoot.WriteEventConst sR e).2 = e :=
  ⟨rfl, rfl, rfl, rfl, rfl, rfl⟩

end LHCb
